import Mathlib

/-
Verification development for the Live PA Audio Analyzer (single-file
Streamlit application `pa_analyzer_v3_final.py`).

The Python source is shallowly embedded in Lean 4:
* audio-sample and dB quantities are modelled as rationals (`ℚ`); the one
  place where the base-10 logarithm itself matters (frame-RMS dB
  conversion) is modelled over `ℝ` with `Real.logb`;
* Python strings are modelled as `String` / `List Char`;
* Python `list.sort(key=..., reverse=True)` (a stable sort) is modelled by
  a stable insertion sort, and `numpy.percentile` (linear interpolation)
  is modelled by an explicit interpolating percentile;
* Python dictionaries of fixed shape are modelled as structures; a dict
  `get` with a default is modelled with `Option.getD` where the key can be
  absent.

Each embedded definition carries a comment naming the Python class/method
it is translated from.
-/

namespace PAV3

/-! ### Generic list machinery

`sortDescBy` models Python's `list.sort(key=lambda x: ..., reverse=True)`:
a stable sort, descending by key.  `sortAscVals` and `percentile` model
`numpy.percentile(xs, q)` with the default linear interpolation.  Both are
defined generically so `percentile` can be used at `ℚ` (stem frame RMS)
and at `ℝ` (dB-converted frame RMS). -/

/-- Stable descending insertion of one element into an already sorted
list of the elements that follow it in the original order: `x` is placed
before the first element whose key is less than or equal to its own, so
elements with an equal key that followed `x` originally stay after it
(stability). -/
def insertDescBy {α : Type} (key : α → ℚ) (x : α) : List α → List α
  | [] => [x]
  | y :: ys => if key y ≤ key x then x :: y :: ys else y :: insertDescBy key x ys

/-- Stable descending sort by a rational-valued key; models Python's
stable `sort(key=..., reverse=True)`. -/
def sortDescBy {α : Type} (key : α → ℚ) : List α → List α
  | [] => []
  | x :: xs => insertDescBy key x (sortDescBy key xs)

/-- Ascending insertion of a value (for `numpy`'s internal sort of the
data before percentile interpolation). -/
def insertAscVal {α : Type} [LinearOrder α] (x : α) : List α → List α
  | [] => [x]
  | y :: ys => if x ≤ y then x :: y :: ys else y :: insertAscVal x ys

/-- Ascending value sort. -/
def sortAscVals {α : Type} [LinearOrder α] : List α → List α
  | [] => []
  | x :: xs => insertAscVal x (sortAscVals xs)

/-- `numpy.percentile(xs, q)` with the default linear interpolation:
sort ascending, take position `p = q/100 * (n-1)`, and interpolate
linearly between the neighbouring data points. -/
def percentile {α : Type} [LinearOrderedField α] [FloorSemiring α]
    (xs : List α) (q : α) : α :=
  let s := sortAscVals xs
  if s.length = 0 then 0
  else
    let p : α := q / 100 * ((s.length : α) - 1)
    let i : ℕ := ⌊p⌋₊
    let lo := s.getD i 0
    let hi := s.getD (min (i + 1) (s.length - 1)) 0
    lo + (p - (i : α)) * (hi - lo)

/-! ### Character-list string helpers

Python string operations used by `InstrumentSeparator._parse_lineup` are
modelled over `List Char`.  `lowerChars` models `str.lower` (identity on
the katakana alphabet, ASCII down-casing otherwise), `trimChars` models
`str.strip` (whitespace removal at both ends), `containsSeq` models the
Python substring test `needle in haystack`. -/

/-- Does `n` occur as a leading segment of the second list? -/
def headMatch : List Char → List Char → Bool
  | [], _ => true
  | _ :: _, [] => false
  | a :: as, b :: bs => a = b && headMatch as bs

/-- Python substring containment `n in h` on character lists. -/
def containsSeq (n : List Char) : List Char → Bool
  | [] => headMatch n []
  | h :: t => headMatch n (h :: t) || containsSeq n t

/-- Python `str.lower` on a character list. -/
def lowerChars (s : List Char) : List Char := s.map Char.toLower

/-- Python `str.strip` on a character list. -/
def trimChars (s : List Char) : List Char :=
  ((s.dropWhile Char.isWhitespace).reverse.dropWhile Char.isWhitespace).reverse

/-- Split a character list at commas (Python `str.split(',')`). -/
def splitOnComma : List Char → List (List Char)
  | [] => [[]]
  | c :: cs =>
    let r := splitOnComma cs
    if c = ',' then [] :: r
    else (c :: r.headD []) :: r.tail

/-! ### InstrumentSeparator._parse_lineup

Embedding of the lineup parser: the alias table (`mapping` in the source,
a Python 3.7+ dict, i.e. iteration in insertion order), tokenisation by
replacing newlines and `、` with commas and splitting on commas, and
first-match alias lookup by substring containment with duplicate
suppression. -/

/-- The `mapping` dict of `InstrumentSeparator._parse_lineup`, in source
(insertion) order.  Each pair is (alias, canonical tag). -/
def aliasTable : List (List Char × String) :=
  [("ボーカル".toList, "vocal"),
   ("ヴォーカル".toList, "vocal"),
   ("vo".toList, "vocal"),
   ("キック".toList, "kick"),
   ("バスドラ".toList, "kick"),
   ("bd".toList, "kick"),
   ("スネア".toList, "snare"),
   ("sn".toList, "snare"),
   ("sd".toList, "snare"),
   ("ハイハット".toList, "hihat"),
   ("ハット".toList, "hihat"),
   ("hh".toList, "hihat"),
   ("タム".toList, "tom"),
   ("ベース".toList, "bass"),
   ("ベ".toList, "bass"),
   ("ba".toList, "bass"),
   ("エレキギター".toList, "e_guitar"),
   ("ギター".toList, "e_guitar"),
   ("エレキ".toList, "e_guitar"),
   ("eg".toList, "e_guitar"),
   ("gt".toList, "e_guitar"),
   ("アコギ".toList, "a_guitar"),
   ("アコースティックギター".toList, "a_guitar"),
   ("ag".toList, "a_guitar"),
   ("キーボード".toList, "keyboard"),
   ("キーボ".toList, "keyboard"),
   ("kb".toList, "keyboard"),
   ("key".toList, "keyboard"),
   ("シンセ".toList, "synth"),
   ("シンセサイザー".toList, "synth"),
   ("syn".toList, "synth")]

/-- One alias-table entry matches a (stripped, lower-cased) token when
`jp_name.lower() in item or eng_name in item` in the source. -/
def aliasMatches (item : List Char) (e : List Char × String) : Bool :=
  containsSeq (lowerChars e.1) item || containsSeq e.2.toList item

/-- `text.replace('\n', ',').replace('、', ',')` — both replacements are
single character for single character. -/
def normalizeSeps (s : List Char) : List Char :=
  (s.map fun c => if c = '\n' then ',' else c).map fun c => if c = '、' then ',' else c

/-- Process one token of the lineup text against the accumulator, as the
body of the `for item in items` loop does: strip and lower-case, skip
empty tokens, look up the first matching alias in table order, and append
its canonical tag unless already present. -/
def parseToken (acc : List String) (item : List Char) : List String :=
  let item := lowerChars (trimChars item)
  if item = [] then acc
  else
    match aliasTable.find? (aliasMatches item) with
    | some e => if e.2 ∈ acc then acc else acc ++ [e.2]
    | none => acc

/-- `InstrumentSeparator._parse_lineup`: canonical instrument tags from a
free-text lineup description. -/
def parseLineup (text : String) : List String :=
  (splitOnComma (normalizeSeps text.toList)).foldl parseToken []

/-! ### V2Analyzer._analyze_frequency

The 7 fixed analysis bands and the per-band mean of the time-averaged
dB spectrum; an empty band yields `-100`. -/

/-- The `bands` table of `V2Analyzer._analyze_frequency`:
(low, high, name). -/
def v2Bands : List (ℚ × ℚ × String) :=
  [(20, 80, "Sub Bass"),
   (80, 250, "Bass"),
   (250, 500, "Low-Mid"),
   (500, 2000, "Mid"),
   (2000, 4000, "High-Mid"),
   (4000, 8000, "Presence"),
   (8000, 16000, "Brilliance")]

/-- The spectrum values at the bins selected by the band mask
`(freqs >= low) & (freqs < high)` (`avg_spectrum[mask]`). -/
def inBandVals (freqs spectrum : List ℚ) (low high : ℚ) : List ℚ :=
  ((freqs.zip spectrum).filter fun p => low ≤ p.1 && p.1 < high).map Prod.snd

/-- One band's energy: the mean of the spectrum values whose frequency
lies in `[low, high)`, or `-100` when no bin falls inside the band. -/
def bandEnergy (freqs spectrum : List ℚ) (low high : ℚ) : ℚ :=
  if (inBandVals freqs spectrum low high).length = 0 then -100
  else (inBandVals freqs spectrum low high).sum / ((inBandVals freqs spectrum low high).length : ℚ)

/-- `band_energies` as computed by `V2Analyzer._analyze_frequency`, from
the FFT bin frequencies and the time-averaged dB spectrum. -/
def bandEnergies (freqs spectrum : List ℚ) : List ℚ :=
  v2Bands.map fun b => bandEnergy freqs spectrum b.1 b.2.1

/-! ### Dynamic range: whole mix vs stem

`V2Analyzer._analyze_dynamics` converts the frame RMS sequence to dB
(`20*log10(r + 1e-10)`) and takes `P95 - P5` of the dB values.
`InstrumentAnalyzer.analyze_instrument` takes `P95 - P5` of the *linear*
frame RMS values directly (`rms_frames` from `librosa.feature.rms`). -/

/-- The dB conversion `20 * np.log10(r + 1e-10)` applied to each frame
RMS value by `V2Analyzer._analyze_dynamics`. -/
noncomputable def frameDb (r : ℚ) : ℝ := 20 * Real.logb 10 ((r : ℝ) + 1e-10)

/-- Stem `dynamic_range` (`InstrumentAnalyzer.analyze_instrument`):
`np.percentile(rms_frames, 95) - np.percentile(rms_frames, 5)` on the
linear frame RMS sequence. -/
def stemDynamicRange (rmsFrames : List ℚ) : ℚ :=
  percentile rmsFrames 95 - percentile rmsFrames 5

/-- Whole-mix `dynamic_range` (`V2Analyzer._analyze_dynamics`): the same
percentile difference, but taken on the dB-converted frame RMS
sequence. -/
noncomputable def mixDynamicRange (rmsFrames : List ℚ) : ℝ :=
  percentile (rmsFrames.map frameDb) 95 - percentile (rmsFrames.map frameDb) 5

/-! ### AudioDatabase

History entries, the snapshot written by `add_entry`, a JSON layer
modelling `json.dump`/`json.load` (number fidelity of the round trip is
exact, which the AST-level model reflects by carrying the numbers
unchanged), and `find_similar` match scoring. -/

/-- Session metadata as used by `add_entry`/`find_similar`
(`venue_capacity`, `mixer`, `pa_system`; a `dict.get` that can miss is an
`Option`). -/
structure Metadata where
  venue_capacity : ℚ
  mixer : Option String
  pa_system : Option String
deriving DecidableEq

/-- The full whole-mix metric set of `V2Analyzer` (§ numeric results). -/
structure MixMetrics where
  rms_db : ℚ
  peak_db : ℚ
  crest_factor : ℚ
  stereo_width : ℚ
  correlation : ℚ
  dynamic_range : ℚ
  band_energies : List ℚ
  onset_avg : ℚ
  onset_max : ℚ
  onset_density : ℚ
  sub_bass_ratio : ℚ
deriving DecidableEq

/-- The `analysis` sub-record persisted by `AudioDatabase.add_entry`
(only these five numeric fields of the mix metrics are written;
`instruments` is written as the empty dict). -/
structure PersistedAnalysis where
  rms_db : ℚ
  peak_db : ℚ
  stereo_width : ℚ
  crest_factor : ℚ
  band_energies : List ℚ
deriving DecidableEq

/-- The `equipment` sub-record of a history entry. -/
structure Equipment where
  mixer : Option String
  pa_system : Option String
deriving DecidableEq

/-- A persisted history entry (`AudioDatabase.add_entry`). -/
structure HistoryEntry where
  id : String
  timestamp : String
  metadata : Metadata
  analysis : PersistedAnalysis
  equipment : Equipment
deriving DecidableEq

/-- `AudioDatabase.add_entry`: the entry built from the analysis results
and metadata (`id`/`timestamp` come from `datetime.now()` and are passed
here as parameters). -/
def addEntryRecord (id timestamp : String) (m : MixMetrics) (meta : Metadata) :
    HistoryEntry :=
  { id := id
    timestamp := timestamp
    metadata := meta
    analysis :=
      { rms_db := m.rms_db
        peak_db := m.peak_db
        stereo_width := m.stereo_width
        crest_factor := m.crest_factor
        band_energies := m.band_energies }
    equipment := { mixer := meta.mixer, pa_system := meta.pa_system } }

/-- JSON values (`json.dump` / `json.load`).  Numbers are carried as the
exact rationals of the model: serialising a finite double with `repr` and
re-parsing it is exact, so the round trip loses nothing. -/
inductive JVal where
  | null : JVal
  | num : ℚ → JVal
  | str : String → JVal
  | arr : List JVal → JVal
  | obj : List (String × JVal) → JVal

/-- Encode an optional string (`None` becomes JSON `null`). -/
def encodeOptStr : Option String → JVal
  | none => .null
  | some s => .str s

/-- Decode an optional string. -/
def decodeOptStr : JVal → Option (Option String)
  | .null => some none
  | .str s => some (some s)
  | _ => none

/-- Encode the metadata sub-record. -/
def encodeMetadata (m : Metadata) : JVal :=
  .obj [("venue_capacity", .num m.venue_capacity),
        ("mixer", encodeOptStr m.mixer),
        ("pa_system", encodeOptStr m.pa_system)]

/-- Encode the analysis sub-record (with the empty `instruments` dict
`add_entry` writes). -/
def encodeAnalysis (a : PersistedAnalysis) : JVal :=
  .obj [("rms_db", .num a.rms_db),
        ("peak_db", .num a.peak_db),
        ("stereo_width", .num a.stereo_width),
        ("crest_factor", .num a.crest_factor),
        ("band_energies", .arr (a.band_energies.map .num)),
        ("instruments", .obj [])]

/-- Encode the equipment sub-record. -/
def encodeEquipment (e : Equipment) : JVal :=
  .obj [("mixer", encodeOptStr e.mixer), ("pa_system", encodeOptStr e.pa_system)]

/-- Encode the serialised form of a history entry, with exactly the keys
written by `add_entry`. -/
def encodeEntry (e : HistoryEntry) : JVal :=
  .obj [("id", .str e.id),
        ("timestamp", .str e.timestamp),
        ("metadata", encodeMetadata e.metadata),
        ("analysis", encodeAnalysis e.analysis),
        ("equipment", encodeEquipment e.equipment)]

/-- Decode a JSON array of numbers. -/
def decodeNumList : List JVal → Option (List ℚ)
  | [] => some []
  | .num q :: rest => (decodeNumList rest).map (q :: ·)
  | _ => none

/-- Decode the metadata sub-record. -/
def decodeMetadata : JVal → Option Metadata
  | .obj [("venue_capacity", .num cap), ("mixer", jm), ("pa_system", jp)] => do
    let m ← decodeOptStr jm
    let p ← decodeOptStr jp
    pure { venue_capacity := cap, mixer := m, pa_system := p }
  | _ => none

/-- Decode the analysis sub-record. -/
def decodeAnalysis : JVal → Option PersistedAnalysis
  | .obj [("rms_db", .num r), ("peak_db", .num p), ("stereo_width", .num w),
          ("crest_factor", .num c), ("band_energies", .arr bs),
          ("instruments", .obj [])] =>
    (decodeNumList bs).map fun bands =>
      { rms_db := r, peak_db := p, stereo_width := w, crest_factor := c
        band_energies := bands }
  | _ => none

/-- Decode the equipment sub-record. -/
def decodeEquipment : JVal → Option Equipment
  | .obj [("mixer", jm), ("pa_system", jp)] => do
    let m ← decodeOptStr jm
    let p ← decodeOptStr jp
    pure { mixer := m, pa_system := p }
  | _ => none

/-- Decode a history entry from its serialised form. -/
def decodeEntry : JVal → Option HistoryEntry
  | .obj [("id", .str id), ("timestamp", .str ts), ("metadata", jm),
          ("analysis", ja), ("equipment", je)] => do
    let meta ← decodeMetadata jm
    let ana ← decodeAnalysis ja
    let equip ← decodeEquipment je
    pure { id := id, timestamp := ts, metadata := meta, analysis := ana
           equipment := equip }
  | _ => none

/-! ### Match scoring

The same three-part score appears in `AudioDatabase.find_similar`
(history entry vs current session) and in
`ComparisonAnalyzer._get_match_type`; both compare venue capacity with
`abs(cur - past) < 50`, and equipment names by equality. -/

/-- The match score: +30 if venue capacities differ by less than 50,
+40 if the mixer names are equal, +30 if the PA-system names are
equal. -/
def matchScoreParts (curCap pastCap : ℚ) (curMixer pastMixer curPa pastPa : Option String) : ℚ :=
  (if |curCap - pastCap| < 50 then 30 else 0)
    + (if curMixer = pastMixer then 40 else 0)
    + (if curPa = pastPa then 30 else 0)

/-- The score `find_similar` assigns to one history entry (capacity from
the entry's metadata, equipment from its equipment record). -/
def findSimilarScore (cur : Metadata) (e : HistoryEntry) : ℚ :=
  matchScoreParts cur.venue_capacity e.metadata.venue_capacity
    cur.mixer e.equipment.mixer cur.pa_system e.equipment.pa_system

/-- `AudioDatabase.find_similar`: score every entry, sort descending by
score (stable), truncate to `limit`, and keep only entries with score
strictly above 20. -/
def findSimilar (cur : Metadata) (history : List HistoryEntry) (limit : ℕ) :
    List HistoryEntry :=
  let scored := history.map fun e => (e, findSimilarScore cur e)
  let sorted := sortDescBy Prod.snd scored
  ((sorted.take limit).filter fun s => 20 < s.2).map Prod.fst

/-- `ComparisonAnalyzer._get_match_type`: classify one past entry against
the current session metadata. -/
def getMatchType (cur pastMeta : Metadata) (pastEquip : Equipment) : String :=
  let score := matchScoreParts cur.venue_capacity pastMeta.venue_capacity
    cur.mixer pastEquip.mixer cur.pa_system pastEquip.pa_system
  if 80 ≤ score then "exact_match"
  else if 50 ≤ score then "similar"
  else "different"

/-! ### InstrumentAnalyzer: vocal problem detection

`_detect_vocal_problems` receives the named vocal sub-band levels and the
base analysis (crest factor, level vs mix), fires threshold rules in a
fixed order, and sorts the collected problems by descending score
(Python's stable sort). -/

/-- A detected issue (`severity`, `category`, `problem`, `score` keys of
the dicts appended by `_detect_vocal_problems`; the `detail` and
`scientific_basis` keys are display strings interpolating the same
numbers and are omitted). -/
structure Problem where
  severity : String
  category : String
  problem : String
  score : ℚ
deriving DecidableEq

/-- The named vocal sub-band levels computed by `_analyze_vocal`
(fundamental 150-400, body 400-1000, clarity 2000-4000,
presence 4000-6000, sibilance 6000-8000, air 8000-12000 Hz). -/
structure VocalFreqBands where
  fundamental : ℚ
  body : ℚ
  clarity : ℚ
  presence : ℚ
  sibilance : ℚ
  air : ℚ
deriving DecidableEq

/-- `freq_bands.get(key, default)` on the vocal band dict: only the six
band names are present, every other key falls back to the default. -/
def vocalBandsGet (fb : VocalFreqBands) (key : String) (dflt : ℚ) : ℚ :=
  if key = "fundamental" then fb.fundamental
  else if key = "body" then fb.body
  else if key = "clarity" then fb.clarity
  else if key = "presence" then fb.presence
  else if key = "sibilance" then fb.sibilance
  else if key = "air" then fb.air
  else dflt

/-- `_detect_vocal_problems` before the final sort: the problem dicts in
the order the rules append them (discovery order). -/
def detectVocalProblemsRaw (fb : VocalFreqBands) (crest levelVsMix : ℚ) : List Problem :=
  -- 1. clarity deficit: clarity < -30, critical below -35
  (if fb.clarity < -30 then
    [{ severity := if fb.clarity < -35 then "critical" else "important"
       category := "周波数バランス", problem := "明瞭度が低い"
       score := |fb.clarity + 25| }]
   else [])
  -- 2. boxiness: body > clarity + 8
  ++ (if fb.clarity + 8 < fb.body then
    [{ severity := "important", category := "周波数バランス"
       problem := "こもりが強い", score := fb.body - fb.clarity }]
   else [])
  -- 3. excess sibilance: sibilance > clarity + 5
  ++ (if fb.clarity + 5 < fb.sibilance then
    [{ severity := "important", category := "周波数バランス"
       problem := "歯擦音が過多（s/sh/ch音が刺さる）"
       score := fb.sibilance - fb.clarity }]
   else [])
  -- 4. dynamics: crest < 6 critical over-compression, crest > 15 too wide
  ++ (if crest < 6 then
    [{ severity := "critical", category := "ダイナミクス"
       problem := "ボーカルが過圧縮", score := |crest - 9| }]
   else if 15 < crest then
    [{ severity := "important", category := "ダイナミクス"
       problem := "ボーカルのダイナミクスが広すぎ", score := crest - 12 }]
   else [])
  -- 5. level balance: level_vs_mix < -8 buried, > -1 too loud
  ++ (if levelVsMix < -8 then
    [{ severity := "important", category := "音量バランス"
       problem := "ボーカルが埋もれている", score := |levelVsMix + 4| }]
   else if -1 < levelVsMix then
    [{ severity := "important", category := "音量バランス"
       problem := "ボーカルが大きすぎ", score := |levelVsMix + 4| }]
   else [])

/-- `_detect_vocal_problems`: the detected problems after
`problems.sort(key=lambda x: x.get('score', 0), reverse=True)`. -/
def detectVocalProblems (fb : VocalFreqBands) (crest levelVsMix : ℚ) : List Problem :=
  sortDescBy (fun p => p.score) (detectVocalProblemsRaw fb crest levelVsMix)

/-! ### InstrumentAnalyzer: trend -/

/-- The trend record built by `_calculate_trend`. -/
structure Trend where
  rms_change : ℚ
  status : String
  clarity_change : Option ℚ
deriving DecidableEq

/-- `InstrumentAnalyzer._calculate_trend`.  `pastRms` is
`past.get('rms_db', current['rms_db'])` — `none` when the historical
diagnosis has no `rms_db` key.  `clarityPair` is
`(current['freq_bands'].get('clarity', 0), past['freq_bands'].get('clarity', 0))`
when both analyses carry a `freq_bands` dict, `none` otherwise. -/
def calculateTrend (currentRms : ℚ) (pastRms : Option ℚ)
    (clarityPair : Option (ℚ × ℚ)) : Trend :=
  let change := currentRms - pastRms.getD currentRms
  { rms_change := change
    status :=
      if 2 < |change| then (if 0 < change then "improving" else "degrading")
      else "stable"
    clarity_change := clarityPair.map fun p => p.1 - p.2 }

/-! ### InstrumentAnalyzer: vocal recommendation generation

`_generate_vocal_recommendations` walks the top three detected problems,
skips a frequency-balance problem when the trend's `clarity_change`
exceeds +2 dB, de-duplicates by category, and emits one recommendation
per matched problem kind.  Step lists are large literal string blocks in
the source; they are represented here by atoms (one constructor per
source block / helper output) while every branch condition selecting a
block is embedded faithfully. -/

/-- Console capabilities consulted by the vocal recommendation code
(`mixer_specs.get('name', '')`, `has_de_esser`, `has_dynamic_eq`). -/
structure MixerSpecs where
  name : String
  has_de_esser : Bool
  has_dynamic_eq : Bool
deriving DecidableEq

/-- Loudspeaker-system profile (only its presence and name matter to the
vocal recommendation code). -/
structure PaSpecs where
  name : String
deriving DecidableEq

/-- Atoms naming the step-list blocks of the source (each constructor is
one literal block or one helper output shape). -/
inductive StepsSrc where
  /-- `_get_vocal_clarity_eq_basic`, small venue + loud stage branch. -/
  | clarityEqBasicSmallLoud : StepsSrc
  /-- `_get_vocal_clarity_eq_basic`, default branch. -/
  | clarityEqBasicDefault : StepsSrc
  /-- `_get_vocal_clarity_eq_comp` with a Yamaha CL console. -/
  | clarityEqCompCL : StepsSrc
  /-- `_get_vocal_clarity_eq_comp` with some other known console. -/
  | clarityEqCompGeneric : StepsSrc
  /-- `_get_vocal_clarity_eq_comp` with no console profile. -/
  | clarityEqCompNoMixer : StepsSrc
  /-- `_get_vocal_clarity_dynamic_eq`. -/
  | clarityDynamicEq : StepsSrc
  /-- `_get_vocal_pa_adjustment` for the named PA system. -/
  | paAdjustment : String → StepsSrc
  /-- boxiness: targeted EQ cut block. -/
  | boxCutSimple : StepsSrc
  /-- boxiness: HPF + mid shaping block. -/
  | boxHpfShaping : StepsSrc
  /-- `_get_deesser_settings_detailed`. -/
  | deEsserDetailed : StepsSrc
  /-- sibilance: manual EQ cut block. -/
  | sibilanceManualEq : StepsSrc
  /-- sibilance: microphone technique block. -/
  | sibilanceMicTechnique : StepsSrc
  /-- dynamics: compressor relaxation block (over-compressed case). -/
  | compRelax : StepsSrc
  /-- `_get_vocal_compressor_settings` with a Yamaha CL console. -/
  | compSettingsCL : StepsSrc
  /-- `_get_vocal_compressor_settings`, generic console. -/
  | compSettingsGeneric : StepsSrc
deriving DecidableEq

/-- `_get_vocal_clarity_eq_basic`: venue- and stage-dependent choice of
the basic clarity EQ block. -/
def getVocalClarityEqBasic (venueCapacity : ℚ) (stageVolume : String) : StepsSrc :=
  let isSmall := venueCapacity < 200
  let hasStage := stageVolume = "high" ∨ stageVolume = "medium"
  if isSmall ∧ hasStage then .clarityEqBasicSmallLoud else .clarityEqBasicDefault

/-- `_get_vocal_clarity_eq_comp`: the combined EQ+compressor steps; the
compressor sub-block depends on whether a console profile exists and
whether its name contains `CL`. -/
def getVocalClarityEqComp (ms : Option MixerSpecs) : StepsSrc :=
  match ms with
  | some m =>
    if containsSeq "CL".toList m.name.toList then .clarityEqCompCL
    else .clarityEqCompGeneric
  | none => .clarityEqCompNoMixer

/-- `_get_vocal_compressor_settings`: CL-specific block when
`mixer_specs` exists and its name contains `CL`, generic block
otherwise. -/
def getVocalCompressorSettings (ms : Option MixerSpecs) : StepsSrc :=
  match ms with
  | some m =>
    if containsSeq "CL".toList m.name.toList then .compSettingsCL
    else .compSettingsGeneric
  | none => .compSettingsGeneric

/-- One remediation approach (`method`, `steps`, `pros`, `cons`,
`difficulty` keys of the approach dicts). -/
structure Approach where
  method : String
  steps : StepsSrc
  pros : List String
  cons : List String
  difficulty : String
deriving DecidableEq

/-- One recommendation (`priority`, `title`, `approaches`; the
display-only keys `problem_detail`, `scientific_basis`, `trend_note` and
`expected_results` are omitted). -/
structure Rec where
  priority : String
  title : String
  approaches : List Approach
deriving DecidableEq

/-- The clarity recommendation (branch `'明瞭度' in problem['problem']`):
two unconditional approaches, a Dynamic-EQ approach gated on the console
reporting `has_dynamic_eq`, and a PA-side approach gated on a known
loudspeaker profile. -/
def clarityRec (ms : Option MixerSpecs) (ps : Option PaSpecs)
    (cap : ℚ) (sv : String) (p : Problem) : Rec :=
  { priority := p.severity
    title := "🎤 ボーカル明瞭度向上"
    approaches :=
      [{ method := "EQ処理（基本）", steps := getVocalClarityEqBasic cap sv
         pros := ["シンプル", "フィードバックリスク低"], cons := ["効果は限定的"]
         difficulty := "★☆☆☆☆" },
       { method := "EQ + Compressor（推奨）", steps := getVocalClarityEqComp ms
         pros := ["効果大", "バランス良好"], cons := ["設定に時間必要"]
         difficulty := "★★★☆☆" }]
      ++ (match ms with
          | some m =>
            if m.has_dynamic_eq then
              [{ method := "Dynamic EQ（上級）", steps := .clarityDynamicEq
                 pros := ["最も自然", "周波数依存処理"], cons := ["設定難易度高"]
                 difficulty := "★★★★☆" }]
            else []
          | none => [])
      ++ (match ps with
          | some pa =>
            [{ method := "PAシステム調整", steps := .paAdjustment pa.name
               pros := ["ソース非破壊", "システム全体最適化"], cons := ["会場依存"]
               difficulty := "★★★☆☆" }]
          | none => []) }

/-- The boxiness recommendation (branch `'こもり' in problem['problem']`). -/
def boxinessRec (p : Problem) : Rec :=
  { priority := p.severity
    title := "🧹 こもり除去"
    approaches :=
      [{ method := "ターゲットEQカット", steps := .boxCutSimple
         pros := ["即効性", "シンプル"], cons := ["やりすぎると薄くなる"]
         difficulty := "★☆☆☆☆" },
       { method := "HPF + 中域シェイピング", steps := .boxHpfShaping
         pros := ["トータルバランス改善", "明瞭度も向上"], cons := ["複数バンド使用"]
         difficulty := "★★★☆☆" }] }

/-- The sibilance recommendation (branch `'歯擦音' in problem['problem']`):
the De-Esser approach only when a console profile exists and reports
`has_de_esser`; the manual-EQ and microphone-technique approaches
always. -/
def sibilanceRec (ms : Option MixerSpecs) (p : Problem) : Rec :=
  { priority := p.severity
    title := "✂️ 歯擦音コントロール"
    approaches :=
      (match ms with
       | some m =>
         if m.has_de_esser then
           [{ method := "De-Esser（推奨）", steps := .deEsserDetailed
              pros := ["周波数選択的", "自然"], cons := ["ミキサーに搭載必要"]
              difficulty := "★★☆☆☆" }]
         else []
       | none => [])
      ++ [{ method := "マニュアルEQカット", steps := .sibilanceManualEq
            pros := ["どのミキサーでも可能"], cons := ["常時カット、不自然になりやすい"]
            difficulty := "★★☆☆☆" },
          { method := "マイク技術的対策", steps := .sibilanceMicTechnique
            pros := ["根本的解決", "EQ不要"], cons := ["事前準備必要"]
            difficulty := "★★★☆☆" }] }

/-- The dynamics recommendation (branch `'ダイナミクス' in category`).
The source reads `crest = freq_bands.get('crest_factor', 10)`; the vocal
band dict has no `crest_factor` key, so the lookup always yields the
default 10 and the over-compressed sub-branch (`crest < 6`) selects the
compressor-settings approach's alternative only when 10 < 6, i.e.
never. -/
def dynamicsRec (ms : Option MixerSpecs) (fb : VocalFreqBands) (p : Problem) : Rec :=
  let crest := vocalBandsGet fb "crest_factor" 10
  { priority := p.severity
    title := "📊 ダイナミクス最適化"
    approaches :=
      if crest < 6 then
        [{ method := "コンプレッサー緩和", steps := .compRelax
           pros := ["音楽的表現力回復"], cons := ["ダイナミクス増で音量変動"]
           difficulty := "★★☆☆☆" }]
      else
        [{ method := "コンプレッサー適切設定", steps := getVocalCompressorSettings ms
           pros := ["安定したボーカル", "ミックスバランス向上"], cons := ["慣れるまで時間必要"]
           difficulty := "★★★☆☆" }] }

/-- The `continue` guard at the top of the loop: skip a frequency-balance
problem when a trend exists and its `clarity_change` (default 0) exceeds
+2 dB. -/
def trendSkips (trend : Option Trend) (category : String) : Bool :=
  match trend with
  | some t => category = "周波数バランス" ∧ 2 < t.clarity_change.getD 0
  | none => false

/-- The `for problem in problems[:3]` loop of
`_generate_vocal_recommendations`, with the addressed-category set
accumulated as a list. -/
def genVocalRecsLoop (ms : Option MixerSpecs) (ps : Option PaSpecs)
    (fb : VocalFreqBands) (trend : Option Trend) (cap : ℚ) (sv : String) :
    List Problem → List String → List Rec
  | [], _ => []
  | p :: rest, addressed =>
    if trendSkips trend p.category then
      genVocalRecsLoop ms ps fb trend cap sv rest addressed
    else if p.category ∈ addressed then
      genVocalRecsLoop ms ps fb trend cap sv rest addressed
    else
      let addressed := addressed ++ [p.category]
      (if containsSeq "明瞭度".toList p.problem.toList then [clarityRec ms ps cap sv p]
       else if containsSeq "こもり".toList p.problem.toList then [boxinessRec p]
       else if containsSeq "歯擦音".toList p.problem.toList then [sibilanceRec ms p]
       else if containsSeq "ダイナミクス".toList p.category.toList then [dynamicsRec ms fb p]
       else [])
      ++ genVocalRecsLoop ms ps fb trend cap sv rest addressed

/-- `InstrumentAnalyzer._generate_vocal_recommendations`. -/
def genVocalRecommendations (ms : Option MixerSpecs) (ps : Option PaSpecs)
    (problems : List Problem) (fb : VocalFreqBands) (trend : Option Trend)
    (cap : ℚ) (sv : String) : List Rec :=
  genVocalRecsLoop ms ps fb trend cap sv (problems.take 3) []

/-! ### InstrumentAnalyzer: per-stem dispatch arity

`analyze_instrument` dispatches on the stem name to the per-instrument
detail analyzers.  Python raises `TypeError` when a call's positional
argument count differs from the method's parameter count (none of these
methods has defaults or varargs); the table below records, per recognized
tag, the argument count at the call site inside `analyze_instrument` and
the parameter count (excluding `self`) of the target method's `def`
line. -/

/-- Per recognized tag: (positional arguments passed at the dispatch call
site, positional parameters of the target method).
vocal → `_analyze_vocal(audio, spectrum, freqs, venue_capacity,
stage_volume, analysis)` vs `def _analyze_vocal(self, audio, spectrum,
freqs, venue_capacity, stage_volume, base_analysis)`;
kick → 4 vs `_analyze_kick(self, audio, spectrum, freqs, base_analysis)`;
snare, bass, hihat, tom → 4 args vs 3-parameter defs
(`def _analyze_snare(self, audio, spectrum, freqs)` etc.);
e_guitar, a_guitar → 5 args vs
`def _analyze_guitar(self, name, audio, spectrum, freqs)`;
keyboard, synth → 5 args vs
`def _analyze_keys(self, name, audio, spectrum, freqs)`. -/
def dispatchArity : String → Option (ℕ × ℕ)
  | "vocal" => some (6, 6)
  | "kick" => some (4, 4)
  | "snare" => some (4, 3)
  | "bass" => some (4, 3)
  | "hihat" => some (4, 3)
  | "tom" => some (4, 3)
  | "e_guitar" => some (5, 4)
  | "a_guitar" => some (5, 4)
  | "keyboard" => some (5, 4)
  | "synth" => some (5, 4)
  | _ => none

/-- Whether `analyze_instrument` raises for a given stem name: a
`TypeError` exactly when the dispatch call's argument count differs from
the target method's parameter count.  A name with no dispatch branch
returns the base analysis without a tag-specific update. -/
def analyzeInstrumentRaises (name : String) : Bool :=
  match dispatchArity name with
  | some (args, params) => args ≠ params
  | none => false

/-- The closed tag vocabulary produced by the separator. -/
def recognizedTags : List String :=
  ["vocal", "kick", "snare", "hihat", "tom", "bass",
   "e_guitar", "a_guitar", "keyboard", "synth"]

/-- `InstrumentAnalyzer.analyze_all` over the stem names: a raised
exception from any per-stem analysis propagates and aborts the whole
run (no diagnosis set); otherwise every stem receives an entry. -/
def analyzeAllOutcome (stemNames : List String) : Except String (List String) :=
  if stemNames.any analyzeInstrumentRaises then .error "TypeError" else .ok stemNames

/-! ## Lemma layer -/

/-! ### Stable descending sort -/

theorem insertDescBy_perm {α : Type} (key : α → ℚ) (x : α) (l : List α) :
    (insertDescBy key x l).Perm (x :: l) := by
  induction l with
  | nil => simp [insertDescBy]
  | cons y ys ih =>
    by_cases h : key y ≤ key x
    · simp [insertDescBy, h]
    · simp only [insertDescBy, if_neg h]
      exact (ih.cons y).trans (List.Perm.swap x y ys)

theorem sortDescBy_perm {α : Type} (key : α → ℚ) (l : List α) :
    (sortDescBy key l).Perm l := by
  induction l with
  | nil => simp [sortDescBy]
  | cons x xs ih =>
    exact (insertDescBy_perm key x (sortDescBy key xs)).trans (ih.cons x)

theorem mem_sortDescBy {α : Type} {key : α → ℚ} {l : List α} {a : α} :
    a ∈ sortDescBy key l ↔ a ∈ l :=
  (sortDescBy_perm key l).mem_iff

theorem insertDescBy_pairwise {α : Type} {key : α → ℚ} {x : α} {l : List α}
    (h : l.Pairwise fun a b => key b ≤ key a) :
    (insertDescBy key x l).Pairwise fun a b => key b ≤ key a := by
  induction l with
  | nil => simp [insertDescBy]
  | cons y ys ih =>
    rcases List.pairwise_cons.mp h with ⟨hy, hys⟩
    by_cases hxy : key y ≤ key x
    · simp only [insertDescBy, if_pos hxy]
      refine List.pairwise_cons.mpr ⟨?_, h⟩
      intro z hz
      rcases List.mem_cons.mp hz with rfl | hz
      · exact hxy
      · exact le_trans (hy z hz) hxy
    · simp only [insertDescBy, if_neg hxy]
      refine List.pairwise_cons.mpr ⟨?_, ih hys⟩
      intro z hz
      rcases List.mem_cons.mp ((insertDescBy_perm key x ys).mem_iff.mp hz) with rfl | hz
      · exact le_of_lt (lt_of_not_le hxy)
      · exact hy z hz

theorem sortDescBy_pairwise {α : Type} (key : α → ℚ) (l : List α) :
    (sortDescBy key l).Pairwise fun a b => key b ≤ key a := by
  induction l with
  | nil => simp [sortDescBy]
  | cons x xs ih => exact insertDescBy_pairwise ih

theorem filter_insertDescBy_of_ne {α : Type} {key : α → ℚ} {x : α} {c : ℚ}
    (hx : key x ≠ c) (l : List α) :
    (insertDescBy key x l).filter (fun a => decide (key a = c)) =
      l.filter fun a => decide (key a = c) := by
  induction l with
  | nil => simp [insertDescBy, hx]
  | cons y ys ih =>
    by_cases hxy : key y ≤ key x
    · simp only [insertDescBy, if_pos hxy, List.filter_cons, decide_eq_false hx]
      simp
    · simp only [insertDescBy, if_neg hxy]
      rw [List.filter_cons, List.filter_cons, ih]

theorem filter_insertDescBy_of_eq {α : Type} {key : α → ℚ} {x : α} {c : ℚ}
    (hx : key x = c) {l : List α}
    (hl : l.Pairwise fun a b => key b ≤ key a) :
    (insertDescBy key x l).filter (fun a => decide (key a = c)) =
      x :: l.filter fun a => decide (key a = c) := by
  induction l with
  | nil => simp [insertDescBy, hx]
  | cons y ys ih =>
    rcases List.pairwise_cons.mp hl with ⟨_, hys⟩
    by_cases hxy : key y ≤ key x
    · simp only [insertDescBy, if_pos hxy, List.filter_cons, decide_eq_true hx]
      simp
    · have hy : key y ≠ c := by
        intro hyc
        exact hxy (le_of_eq (hyc.trans hx.symm))
      simp only [insertDescBy, if_neg hxy]
      rw [List.filter_cons, List.filter_cons, ih hys]
      simp [decide_eq_false hy]

/-- Stability of the descending sort: for each key value, the sub-list of
elements carrying that key is unchanged (equal keys keep their original
relative order). -/
theorem sortDescBy_filter_key {α : Type} (key : α → ℚ) (c : ℚ) (l : List α) :
    (sortDescBy key l).filter (fun a => decide (key a = c)) =
      l.filter fun a => decide (key a = c) := by
  induction l with
  | nil => simp [sortDescBy]
  | cons x xs ih =>
    by_cases hx : key x = c
    · rw [sortDescBy, filter_insertDescBy_of_eq hx (sortDescBy_pairwise key xs), ih]
      simp [hx]
    · rw [sortDescBy, filter_insertDescBy_of_ne hx, ih]
      simp [hx]

/-! ### Percentile on two data points -/

theorem sortAscVals_pair {α : Type} [LinearOrder α] {a b : α} (h : a ≤ b) :
    sortAscVals [a, b] = [a, b] := by
  simp [sortAscVals, insertAscVal, h]

theorem percentile_pair {α : Type} [LinearOrderedField α] [FloorSemiring α]
    {a b : α} (q : α) (hab : a ≤ b) (h1 : q / 100 < 1) :
    percentile [a, b] q = a + q / 100 * (b - a) := by
  unfold percentile
  rw [sortAscVals_pair hab]
  have hp : q / 100 * ((([a, b].length : ℕ) : α) - 1) = q / 100 := by
    norm_num
  simp only [hp]
  have hfl : ⌊q / 100⌋₊ = 0 := Nat.floor_eq_zero.mpr h1
  simp [hfl]

/-! ### frameDb evaluations

Two frame RMS values whose dB conversions are exact: `0` maps to
`20*log10(1e-10) = -200` and `1 - 1e-10` maps to `20*log10(1) = 0`. -/

theorem frameDb_zero : frameDb 0 = -200 := by
  unfold frameDb
  have h1 : ((0 : ℚ) : ℝ) + 1e-10 = (10 : ℝ) ^ (-10 : ℝ) := by
    rw [show (-10 : ℝ) = -((10 : ℕ) : ℝ) by norm_num,
      Real.rpow_neg (by norm_num), Real.rpow_natCast]
    norm_num
  rw [h1, Real.logb_rpow (by norm_num) (by norm_num)]
  norm_num

theorem frameDb_almost_one : frameDb (1 - 1e-10) = 0 := by
  unfold frameDb
  have h1 : ((1 - 1e-10 : ℚ) : ℝ) + 1e-10 = 1 := by
    push_cast
    norm_num
  rw [h1, Real.logb_one]
  ring

/-! ### JSON round trip -/

theorem decodeOptStr_encodeOptStr (s : Option String) :
    decodeOptStr (encodeOptStr s) = some s := by
  cases s <;> rfl

theorem decodeNumList_map_num (l : List ℚ) :
    decodeNumList (l.map JVal.num) = some l := by
  induction l with
  | nil => rfl
  | cons q qs ih => simp [decodeNumList, ih]

theorem decodeMetadata_encodeMetadata (m : Metadata) :
    decodeMetadata (encodeMetadata m) = some m := by
  obtain ⟨cap, mx, px⟩ := m
  cases mx <;> cases px <;> rfl

theorem decodeAnalysis_encodeAnalysis (a : PersistedAnalysis) :
    decodeAnalysis (encodeAnalysis a) = some a := by
  simp only [encodeAnalysis, decodeAnalysis]
  rw [decodeNumList_map_num]
  rfl

theorem decodeEquipment_encodeEquipment (e : Equipment) :
    decodeEquipment (encodeEquipment e) = some e := by
  obtain ⟨mx, px⟩ := e
  cases mx <;> cases px <;> rfl

theorem decodeEntry_encodeEntry (e : HistoryEntry) :
    decodeEntry (encodeEntry e) = some e := by
  simp only [encodeEntry, decodeEntry]
  rw [decodeMetadata_encodeMetadata, decodeAnalysis_encodeAnalysis,
    decodeEquipment_encodeEquipment]
  rfl

/-! ### Lineup parser invariants -/

theorem parseToken_sub (acc : List String) (item : List Char) (t : String)
    (ht : t ∈ parseToken acc item) :
    t ∈ acc ∨ ∃ e ∈ aliasTable, e.2 = t := by
  unfold parseToken at ht
  by_cases hempty : lowerChars (trimChars item) = []
  · rw [if_pos hempty] at ht
    exact Or.inl ht
  · rw [if_neg hempty] at ht
    cases hfind : aliasTable.find? (aliasMatches (lowerChars (trimChars item))) with
    | none => rw [hfind] at ht; exact Or.inl ht
    | some e =>
      rw [hfind] at ht
      dsimp only at ht
      by_cases hmem : e.2 ∈ acc
      · rw [if_pos hmem] at ht; exact Or.inl ht
      · rw [if_neg hmem] at ht
        rcases List.mem_append.mp ht with h | h
        · exact Or.inl h
        · refine Or.inr ⟨e, List.mem_of_find?_eq_some hfind, ?_⟩
          simp at h
          exact h.symm

theorem parseToken_nodup (acc : List String) (item : List Char)
    (h : acc.Nodup) : (parseToken acc item).Nodup := by
  unfold parseToken
  by_cases hempty : lowerChars (trimChars item) = []
  · rwa [if_pos hempty]
  · rw [if_neg hempty]
    cases hfind : aliasTable.find? (aliasMatches (lowerChars (trimChars item))) with
    | none => exact h
    | some e =>
      dsimp only
      by_cases hmem : e.2 ∈ acc
      · rw [if_pos hmem]; exact h
      · rw [if_neg hmem]
        simpa [List.nodup_append] using ⟨h, hmem⟩

theorem foldl_parseToken_nodup (items : List (List Char)) (acc : List String)
    (h : acc.Nodup) : (items.foldl parseToken acc).Nodup := by
  induction items generalizing acc with
  | nil => exact h
  | cons i rest ih => exact ih _ (parseToken_nodup acc i h)

theorem foldl_parseToken_sub (items : List (List Char)) (acc : List String)
    (t : String) (ht : t ∈ items.foldl parseToken acc) :
    t ∈ acc ∨ ∃ e ∈ aliasTable, e.2 = t := by
  induction items generalizing acc with
  | nil => exact Or.inl ht
  | cons i rest ih =>
    rcases ih (parseToken acc i) ht with h | h
    · exact parseToken_sub acc i t h
    · exact Or.inr h

/-! ### Membership in conditional singletons -/

theorem mem_ite_singleton {α : Type} {c : Prop} [Decidable c] {x p : α} :
    (p ∈ if c then [x] else []) ↔ c ∧ p = x := by
  split_ifs with h <;> simp [h]

theorem mem_ite_ite_singleton {α : Type} {c1 c2 : Prop} [Decidable c1] [Decidable c2]
    {x y p : α} :
    (p ∈ if c1 then [x] else if c2 then [y] else []) ↔
      (c1 ∧ p = x) ∨ (¬c1 ∧ c2 ∧ p = y) := by
  split_ifs with h1 h2
  · simp [h1]
  · simp [h1, h2]
  · simp [h1, h2]

/-! ## Claim theorems -/

/-- C1: the per-stem dispatch of `analyze_instrument` does not succeed for
every recognized tag: evaluated on the source's call-site/parameter
arities, only `vocal` and `kick` dispatch without raising, while `snare`,
`hihat`, `tom`, `bass`, both guitars, `keyboard` and `synth` raise a
`TypeError` (call-site argument count differs from the method's parameter
count), and the exception aborts `analyze_all` so no diagnosis set is
produced. -/
theorem c1_dispatch_arity_bug :
    analyzeInstrumentRaises "vocal" = false
    ∧ analyzeInstrumentRaises "kick" = false
    ∧ recognizedTags.filter analyzeInstrumentRaises =
        ["snare", "hihat", "tom", "bass", "e_guitar", "a_guitar", "keyboard", "synth"]
    ∧ analyzeAllOutcome ["vocal", "kick", "snare"] = Except.error "TypeError"
    ∧ analyzeAllOutcome ["vocal", "kick"] = Except.ok ["vocal", "kick"] :=
  ⟨rfl, rfl, by decide, rfl, rfl⟩

/-- C7: parsing `"ボーカル、キック、キック、ベース"` yields exactly
`[vocal, kick, bass]` (aliases mapped to canonical tags, the duplicate
`キック` suppressed, first-seen order kept); moreover for every input the
parse result is duplicate-free and contains only canonical tags from the
alias table (unrecognized tokens contribute nothing). -/
theorem c7_parse_lineup :
    parseLineup "ボーカル、キック、キック、ベース" = ["vocal", "kick", "bass"]
    ∧ (∀ text : String, (parseLineup text).Nodup)
    ∧ (∀ text : String, ∀ t ∈ parseLineup text, t ∈ aliasTable.map Prod.snd) := by
  refine ⟨by decide, fun text => foldl_parseToken_nodup _ _ List.nodup_nil,
    fun text t ht => ?_⟩
  rcases foldl_parseToken_sub _ _ t ht with h | h
  · simp at h
  · rcases h with ⟨e, he, he2⟩
    exact List.mem_map.mpr ⟨e, he, he2⟩

/-- C7 witness: the tag parsed from the concrete lineup text is a
canonical tag of the alias table. -/
theorem c7_parse_lineup_witness : "vocal" ∈ aliasTable.map Prod.snd :=
  c7_parse_lineup.2.2 "ボーカル、キック、キック、ベース" "vocal" (by decide)

/-- C10: the token `アコースティックギター` is assigned `e_guitar`, not
`a_guitar`: the alias `ギター` (table position 17) precedes
`アコースティックギター` (table position 22), matches the token by
substring containment, and is therefore the alias `find?` selects, even
though the full-token alias for `a_guitar` also matches. -/
theorem c10_alias_order_shadowing :
    parseLineup "アコースティックギター" = ["e_guitar"]
    ∧ aliasTable.getD 17 ([], "") = ("ギター".toList, "e_guitar")
    ∧ aliasTable.getD 22 ([], "") = ("アコースティックギター".toList, "a_guitar")
    ∧ containsSeq "ギター".toList "アコースティックギター".toList = true
    ∧ aliasMatches (lowerChars (trimChars "アコースティックギター".toList))
        ("アコースティックギター".toList, "a_guitar") = true
    ∧ aliasTable.find? (aliasMatches (lowerChars (trimChars "アコースティックギター".toList)))
        = some ("ギター".toList, "e_guitar") := by
  refine ⟨by decide, by decide, by decide, by decide, by decide, by decide⟩

/-- C8: `band_energies` always has exactly 7 entries; the bands are the
fixed ascending intervals 20-80-250-500-2000-4000-8000-16000 Hz; a band
with no spectrum bin yields `-100`, and a non-empty band's value times
its bin count equals the sum of the in-band spectrum values (i.e. it is
their mean). -/
theorem c8_band_energies (freqs spectrum : List ℚ) :
    (bandEnergies freqs spectrum).length = 7
    ∧ bandEnergies freqs spectrum =
        [bandEnergy freqs spectrum 20 80, bandEnergy freqs spectrum 80 250,
         bandEnergy freqs spectrum 250 500, bandEnergy freqs spectrum 500 2000,
         bandEnergy freqs spectrum 2000 4000, bandEnergy freqs spectrum 4000 8000,
         bandEnergy freqs spectrum 8000 16000]
    ∧ (∀ low high : ℚ, inBandVals freqs spectrum low high = [] →
        bandEnergy freqs spectrum low high = -100)
    ∧ (∀ low high : ℚ, inBandVals freqs spectrum low high ≠ [] →
        bandEnergy freqs spectrum low high * ((inBandVals freqs spectrum low high).length : ℚ)
          = (inBandVals freqs spectrum low high).sum) := by
  refine ⟨rfl, rfl, ?_, ?_⟩
  · intro low high h
    rw [bandEnergy, if_pos (by rw [h]; rfl)]
  · intro low high h
    have hlen : (inBandVals freqs spectrum low high).length ≠ 0 :=
      fun h0 => h (List.length_eq_zero.mp h0)
    rw [bandEnergy, if_neg hlen]
    have hcast : ((inBandVals freqs spectrum low high).length : ℚ) ≠ 0 :=
      Nat.cast_ne_zero.mpr hlen
    field_simp

/-- C8 witness: with bins at 100 Hz and 3000 Hz, the 20-80 Hz band is
empty and floors to -100, while the 80-250 Hz band holds the single value
-7. -/
theorem c8_band_energies_witness :
    bandEnergy [100, 3000] [-7, -13] 20 80 = -100
    ∧ bandEnergy [100, 3000] [-7, -13] 80 250
        * ((inBandVals [100, 3000] [-7, -13] 80 250).length : ℚ)
        = (inBandVals [100, 3000] [-7, -13] 80 250).sum :=
  ⟨(c8_band_energies [100, 3000] [-7, -13]).2.2.1 20 80 (by decide),
   (c8_band_energies [100, 3000] [-7, -13]).2.2.2 80 250 (by decide)⟩

/-- Evaluation helper: the stem dynamic range of a two-frame RMS sequence
is nine tenths of the linear spread. -/
theorem stemDynamicRange_pair (a b : ℚ) (hab : a ≤ b) :
    stemDynamicRange [a, b] = 9 / 10 * (b - a) := by
  unfold stemDynamicRange
  rw [percentile_pair 95 hab (by norm_num), percentile_pair 5 hab (by norm_num)]
  ring

/-- Evaluation helper: the whole-mix dynamic range of the frame RMS
sequence `[0, 1 - 1e-10]` is exactly 180 dB, because the two dB-converted
frames are -200 and 0. -/
theorem mixDynamicRange_eval : mixDynamicRange [0, 1 - 1e-10] = 180 := by
  unfold mixDynamicRange
  have hmap : (([0, 1 - 1e-10] : List ℚ).map frameDb) = [(-200 : ℝ), 0] := by
    rw [List.map_cons, List.map_cons, List.map_nil, frameDb_zero, frameDb_almost_one]
  rw [hmap, percentile_pair 95 (by norm_num) (by norm_num),
    percentile_pair 5 (by norm_num) (by norm_num)]
  norm_num

/-- C2 counterexample: on the frame RMS sequence `[0, 1 - 1e-10]` the
stem dynamic range (P95-P5 of the linear values, about 0.9) differs from
the whole-mix definition (P95-P5 of the dB-converted values, exactly
180 dB). -/
theorem c2_counterexample :
    ((stemDynamicRange [0, 1 - 1e-10] : ℚ) : ℝ) ≠ mixDynamicRange [0, 1 - 1e-10] := by
  rw [mixDynamicRange_eval, stemDynamicRange_pair 0 (1 - 1e-10) (by norm_num)]
  intro h
  rw [show ((9 / 10 * (1 - 1e-10 - 0) : ℚ) : ℝ) = ((9 / 10 * (1 - 1e-10 - 0) : ℚ) : ℝ) from rfl] at h
  have : ((9 / 10 * (1 - 1e-10 - 0) : ℚ) : ℝ) < 180 := by
    push_cast
    norm_num
  exact absurd h (ne_of_lt this)

/-- C2 amended: the stem `dynamic_range` is the P95-P5 spread of the
*linear* frame RMS sequence (for two frames `a ≤ b` it equals
`9/10*(b-a)`), whereas the whole-mix metric first converts each frame to
dB with `20*log10(r + 1e-10)`; on `[0, 1 - 1e-10]` the stem value is
`9/10*(1 - 1e-10)` while the mix definition gives 180 dB. -/
theorem c2_stem_dynamic_range_is_linear (a b : ℚ) (hab : a ≤ b) :
    stemDynamicRange [a, b] = 9 / 10 * (b - a)
    ∧ stemDynamicRange [0, 1 - 1e-10] = 9 / 10 * (1 - 1e-10)
    ∧ mixDynamicRange [0, 1 - 1e-10] = 180 := by
  refine ⟨stemDynamicRange_pair a b hab, ?_, mixDynamicRange_eval⟩
  rw [stemDynamicRange_pair 0 (1 - 1e-10) (by norm_num)]
  ring

/-- C2 witness: the linear two-frame formula evaluated at frames 0 and
2. -/
theorem c2_stem_dynamic_range_witness : stemDynamicRange [0, 2] = 9 / 10 * (2 - 0) :=
  (c2_stem_dynamic_range_is_linear 0 2 (by norm_num)).1

/-- C4 counterexample: two mix-metric records that differ only in
`dynamic_range` (0 vs 7 dB) serialise to identical history entries —
`add_entry` never writes `dynamic_range` — so no function of the
written-and-reloaded JSON can reproduce that numeric field of both
records within 1e-6. -/
theorem c4_counterexample :
    ¬ ∃ recover : JVal → ℚ,
        ∀ (m : MixMetrics) (meta : Metadata) (id ts : String),
          |recover (encodeEntry (addEntryRecord id ts m meta)) - m.dynamic_range|
            ≤ 1 / 1000000 := by
  rintro ⟨recover, h⟩
  have h0 := h ⟨-18, -1, 17, 40, 1, 0, [], 0, 0, 0, 0⟩ ⟨100, none, none⟩ "i" "t"
  have h7 := h ⟨-18, -1, 17, 40, 1, 7, [], 0, 0, 0, 0⟩ ⟨100, none, none⟩ "i" "t"
  have heq : encodeEntry (addEntryRecord "i" "t" ⟨-18, -1, 17, 40, 1, 7, [], 0, 0, 0, 0⟩
        ⟨100, none, none⟩)
      = encodeEntry (addEntryRecord "i" "t" ⟨-18, -1, 17, 40, 1, 0, [], 0, 0, 0, 0⟩
        ⟨100, none, none⟩) := rfl
  rw [heq] at h7
  dsimp only at h0 h7
  rw [abs_le] at h0 h7
  have h1 := h0.1
  have h2 := h7.2
  linarith

/-- C4 amended: every numeric field that `add_entry` persists (`rms_db`,
`peak_db`, `stereo_width`, `crest_factor` and the `band_energies`
sequence) is carried into the entry unchanged, and decoding the encoded
entry returns it exactly — so the persisted fields round-trip with error
0, well within 1e-6; the remaining mix-metric fields (`correlation`,
`dynamic_range`, onset statistics, `sub_bass_ratio`) are not persisted at
all. -/
theorem c4_roundtrip (m : MixMetrics) (meta : Metadata) (id ts : String) :
    decodeEntry (encodeEntry (addEntryRecord id ts m meta))
        = some (addEntryRecord id ts m meta)
    ∧ (addEntryRecord id ts m meta).analysis.rms_db = m.rms_db
    ∧ (addEntryRecord id ts m meta).analysis.peak_db = m.peak_db
    ∧ (addEntryRecord id ts m meta).analysis.stereo_width = m.stereo_width
    ∧ (addEntryRecord id ts m meta).analysis.crest_factor = m.crest_factor
    ∧ (addEntryRecord id ts m meta).analysis.band_energies = m.band_energies := by
  exact ⟨decodeEntry_encodeEntry _, rfl, rfl, rfl, rfl, rfl⟩

/-- C6: the match score adds +30 for capacity difference below 50, +40
for an identical console name, +30 for an identical PA name; the match
type is `exact_match` for score >= 80, `similar` for 50 <= score < 80 and
`different` below 50; all three matching gives 100 and `exact_match`, no
overlap gives 0 and `different`; and `find_similar` only ever returns
entries whose score strictly exceeds 20. -/
theorem c6_match_scoring (cur pastMeta : Metadata) (pastEquip : Equipment)
    (history : List HistoryEntry) (limit : ℕ) (e : HistoryEntry) :
    (|cur.venue_capacity - pastMeta.venue_capacity| < 50 →
      cur.mixer = pastEquip.mixer → cur.pa_system = pastEquip.pa_system →
      matchScoreParts cur.venue_capacity pastMeta.venue_capacity
          cur.mixer pastEquip.mixer cur.pa_system pastEquip.pa_system = 100
        ∧ getMatchType cur pastMeta pastEquip = "exact_match")
    ∧ (¬ |cur.venue_capacity - pastMeta.venue_capacity| < 50 →
      cur.mixer ≠ pastEquip.mixer → cur.pa_system ≠ pastEquip.pa_system →
      matchScoreParts cur.venue_capacity pastMeta.venue_capacity
          cur.mixer pastEquip.mixer cur.pa_system pastEquip.pa_system = 0
        ∧ getMatchType cur pastMeta pastEquip = "different")
    ∧ (getMatchType cur pastMeta pastEquip = "exact_match" ↔
        80 ≤ matchScoreParts cur.venue_capacity pastMeta.venue_capacity
          cur.mixer pastEquip.mixer cur.pa_system pastEquip.pa_system)
    ∧ (getMatchType cur pastMeta pastEquip = "similar" ↔
        (50 ≤ matchScoreParts cur.venue_capacity pastMeta.venue_capacity
            cur.mixer pastEquip.mixer cur.pa_system pastEquip.pa_system
          ∧ matchScoreParts cur.venue_capacity pastMeta.venue_capacity
              cur.mixer pastEquip.mixer cur.pa_system pastEquip.pa_system < 80))
    ∧ (getMatchType cur pastMeta pastEquip = "different" ↔
        matchScoreParts cur.venue_capacity pastMeta.venue_capacity
          cur.mixer pastEquip.mixer cur.pa_system pastEquip.pa_system < 50)
    ∧ (e ∈ findSimilar cur history limit → 20 < findSimilarScore cur e) := by
  refine ⟨?_, ?_, ?_, ?_, ?_, ?_⟩
  · intro h1 h2 h3
    have hs : matchScoreParts cur.venue_capacity pastMeta.venue_capacity
        cur.mixer pastEquip.mixer cur.pa_system pastEquip.pa_system = 100 := by
      rw [matchScoreParts, if_pos h1, if_pos h2, if_pos h3]
      norm_num
    refine ⟨hs, ?_⟩
    rw [getMatchType, hs]
    norm_num
  · intro h1 h2 h3
    have hs : matchScoreParts cur.venue_capacity pastMeta.venue_capacity
        cur.mixer pastEquip.mixer cur.pa_system pastEquip.pa_system = 0 := by
      rw [matchScoreParts, if_neg h1, if_neg h2, if_neg h3]
      norm_num
    refine ⟨hs, ?_⟩
    rw [getMatchType, hs]
    norm_num
  · rw [getMatchType]
    split_ifs with h1 h2
    · simp [h1]
    · simp [h1]
    · simp [h1]
  · rw [getMatchType]
    split_ifs with h1 h2
    · constructor
      · intro h; exact absurd h (by decide)
      · rintro ⟨-, hlt⟩; exact absurd h1 (not_le.mpr hlt)
    · simp [h2, lt_of_not_le h1]
    · constructor
      · intro h; exact absurd h (by decide)
      · rintro ⟨hge, -⟩; exact absurd hge (by exact h2)
  · rw [getMatchType]
    split_ifs with h1 h2
    · constructor
      · intro h; exact absurd h (by decide)
      · intro hlt; exact absurd h1 (not_le.mpr (lt_of_lt_of_le hlt (by norm_num)))
    · constructor
      · intro h; exact absurd h (by decide)
      · intro hlt; exact absurd h2 (not_le.mpr hlt)
    · simp [lt_of_not_le h2]
  · intro he
    unfold findSimilar at he
    rcases List.mem_map.mp he with ⟨pair, hpair, hfst⟩
    have h20 : 20 < pair.2 := by
      have := (List.mem_filter.mp hpair).2
      exact of_decide_eq_true this
    have hmem : pair ∈ sortDescBy Prod.snd
        (history.map fun x => (x, findSimilarScore cur x)) :=
      List.take_subset _ _ (List.mem_filter.mp hpair).1
    have hmem2 : pair ∈ history.map fun x => (x, findSimilarScore cur x) :=
      (sortDescBy_perm _ _).mem_iff.mp hmem
    rcases List.mem_map.mp hmem2 with ⟨x, -, hx⟩
    subst hx
    dsimp only at hfst h20
    subst hfst
    exact h20

/-- C6 witness: a concrete current session against a concrete past entry
with all three attributes matching (score 100, `exact_match`), and that
entry is returned by `find_similar` with score above 20. -/
theorem c6_match_scoring_witness :
    (matchScoreParts 300 320 (some "CL5") (some "CL5") (some "dbaudio") (some "dbaudio") = 100
      ∧ getMatchType ⟨300, some "CL5", some "dbaudio"⟩ ⟨320, some "CL5", some "dbaudio"⟩
          ⟨some "CL5", some "dbaudio"⟩ = "exact_match")
    ∧ 20 < findSimilarScore ⟨300, some "CL5", some "dbaudio"⟩
        ⟨"e1", "2024", ⟨320, some "CL5", some "dbaudio"⟩, ⟨-18, -1, 40, 17, []⟩,
         ⟨some "CL5", some "dbaudio"⟩⟩ :=
  ⟨(c6_match_scoring ⟨300, some "CL5", some "dbaudio"⟩ ⟨320, some "CL5", some "dbaudio"⟩
      ⟨some "CL5", some "dbaudio"⟩ [] 3
      ⟨"e1", "2024", ⟨320, some "CL5", some "dbaudio"⟩, ⟨-18, -1, 40, 17, []⟩,
       ⟨some "CL5", some "dbaudio"⟩⟩).1 (by norm_num) rfl rfl,
   (c6_match_scoring ⟨300, some "CL5", some "dbaudio"⟩ ⟨320, some "CL5", some "dbaudio"⟩
      ⟨some "CL5", some "dbaudio"⟩
      [⟨"e1", "2024", ⟨320, some "CL5", some "dbaudio"⟩, ⟨-18, -1, 40, 17, []⟩,
        ⟨some "CL5", some "dbaudio"⟩⟩] 3
      ⟨"e1", "2024", ⟨320, some "CL5", some "dbaudio"⟩, ⟨-18, -1, 40, 17, []⟩,
       ⟨some "CL5", some "dbaudio"⟩⟩).2.2.2.2.2
    (by simp [findSimilar, findSimilarScore, matchScoreParts, sortDescBy, insertDescBy]
        norm_num)⟩

/-- Transfer of bounded existentials along a permutation. -/
theorem exists_mem_perm {α : Type} {l1 l2 : List α} (h : l1.Perm l2) (P : α → Prop) :
    (∃ p ∈ l1, P p) ↔ ∃ p ∈ l2, P p := by
  constructor <;> rintro ⟨p, hp, hP⟩
  · exact ⟨p, h.mem_iff.mp hp, hP⟩
  · exact ⟨p, h.mem_iff.mpr hp, hP⟩

/-- Membership in the discovery-order problem list, rule by rule. -/
theorem mem_detectVocalProblemsRaw {fb : VocalFreqBands} {crest lvm : ℚ} {p : Problem} :
    p ∈ detectVocalProblemsRaw fb crest lvm ↔
      (fb.clarity < -30 ∧ p = ⟨if fb.clarity < -35 then "critical" else "important",
        "周波数バランス", "明瞭度が低い", |fb.clarity + 25|⟩)
      ∨ (fb.clarity + 8 < fb.body ∧ p = ⟨"important", "周波数バランス",
          "こもりが強い", fb.body - fb.clarity⟩)
      ∨ (fb.clarity + 5 < fb.sibilance ∧ p = ⟨"important", "周波数バランス",
          "歯擦音が過多（s/sh/ch音が刺さる）", fb.sibilance - fb.clarity⟩)
      ∨ (crest < 6 ∧ p = ⟨"critical", "ダイナミクス", "ボーカルが過圧縮", |crest - 9|⟩)
      ∨ (¬crest < 6 ∧ 15 < crest ∧ p = ⟨"important", "ダイナミクス",
          "ボーカルのダイナミクスが広すぎ", crest - 12⟩)
      ∨ (lvm < -8 ∧ p = ⟨"important", "音量バランス", "ボーカルが埋もれている", |lvm + 4|⟩)
      ∨ (¬lvm < -8 ∧ -1 < lvm ∧ p = ⟨"important", "音量バランス",
          "ボーカルが大きすぎ", |lvm + 4|⟩) := by
  unfold detectVocalProblemsRaw
  simp only [List.mem_append, mem_ite_singleton, mem_ite_ite_singleton, or_assoc]

/-- C5: the vocal issue rules fire exactly at the documented thresholds —
a clarity issue exactly when the 2-4 kHz band is below -30 dB, its
severity `critical` exactly below -35 dB; a `critical` over-compression
issue exactly when the crest factor is below 6 dB; a boxiness issue
exactly when the body band exceeds the clarity band by more than 8 dB —
and the emitted list is sorted by strictly descending score with
equal-score issues kept in discovery order (the sorted list is a
permutation of the discovery-order list whose equal-score sub-lists are
unchanged). -/
theorem c5_vocal_issue_rules (fb : VocalFreqBands) (crest lvm : ℚ) :
    ((∃ p ∈ detectVocalProblems fb crest lvm, p.problem = "明瞭度が低い") ↔
        fb.clarity < -30)
    ∧ (∀ p ∈ detectVocalProblems fb crest lvm, p.problem = "明瞭度が低い" →
        (p.severity = "critical" ↔ fb.clarity < -35))
    ∧ ((∃ p ∈ detectVocalProblems fb crest lvm, p.problem = "ボーカルが過圧縮") ↔
        crest < 6)
    ∧ (∀ p ∈ detectVocalProblems fb crest lvm, p.problem = "ボーカルが過圧縮" →
        p.severity = "critical")
    ∧ ((∃ p ∈ detectVocalProblems fb crest lvm, p.problem = "こもりが強い") ↔
        fb.clarity + 8 < fb.body)
    ∧ (detectVocalProblems fb crest lvm).Pairwise (fun a b => b.score ≤ a.score)
    ∧ (∀ c : ℚ, (detectVocalProblems fb crest lvm).filter (fun p => decide (p.score = c))
        = (detectVocalProblemsRaw fb crest lvm).filter fun p => decide (p.score = c))
    ∧ (detectVocalProblems fb crest lvm).Perm (detectVocalProblemsRaw fb crest lvm) := by
  have hperm : (detectVocalProblems fb crest lvm).Perm (detectVocalProblemsRaw fb crest lvm) := by
    unfold detectVocalProblems
    exact sortDescBy_perm _ _
  refine ⟨?_, ?_, ?_, ?_, ?_, sortDescBy_pairwise _ _, fun c => sortDescBy_filter_key _ c _,
    hperm⟩
  · rw [exists_mem_perm hperm]
    constructor
    · rintro ⟨p, hp, hname⟩
      rcases mem_detectVocalProblemsRaw.mp hp with ⟨h, rfl⟩ | ⟨h, rfl⟩ | ⟨h, rfl⟩ |
        ⟨h, rfl⟩ | ⟨h1, h2, rfl⟩ | ⟨h, rfl⟩ | ⟨h1, h2, rfl⟩
      · exact h
      all_goals exact absurd hname (by simp)
    · intro h
      exact ⟨_, mem_detectVocalProblemsRaw.mpr (Or.inl ⟨h, rfl⟩), rfl⟩
  · intro p hp hname
    rw [hperm.mem_iff] at hp
    rcases mem_detectVocalProblemsRaw.mp hp with ⟨h, rfl⟩ | ⟨h, rfl⟩ | ⟨h, rfl⟩ |
      ⟨h, rfl⟩ | ⟨h1, h2, rfl⟩ | ⟨h, rfl⟩ | ⟨h1, h2, rfl⟩
    · show (if fb.clarity < -35 then "critical" else "important") = "critical" ↔
        fb.clarity < -35
      split_ifs with h35
      · simp [h35]
      · simp [h35]
    all_goals exact absurd hname (by simp)
  · rw [exists_mem_perm hperm]
    constructor
    · rintro ⟨p, hp, hname⟩
      rcases mem_detectVocalProblemsRaw.mp hp with ⟨h, rfl⟩ | ⟨h, rfl⟩ | ⟨h, rfl⟩ |
        ⟨h, rfl⟩ | ⟨h1, h2, rfl⟩ | ⟨h, rfl⟩ | ⟨h1, h2, rfl⟩
      · exact absurd hname (by simp)
      · exact absurd hname (by simp)
      · exact absurd hname (by simp)
      · exact h
      all_goals exact absurd hname (by simp)
    · intro h
      exact ⟨_, mem_detectVocalProblemsRaw.mpr
        (Or.inr (Or.inr (Or.inr (Or.inl ⟨h, rfl⟩)))), rfl⟩
  · intro p hp hname
    rw [hperm.mem_iff] at hp
    rcases mem_detectVocalProblemsRaw.mp hp with ⟨h, rfl⟩ | ⟨h, rfl⟩ | ⟨h, rfl⟩ |
      ⟨h, rfl⟩ | ⟨h1, h2, rfl⟩ | ⟨h, rfl⟩ | ⟨h1, h2, rfl⟩
    · exact absurd hname (by simp)
    · exact absurd hname (by simp)
    · exact absurd hname (by simp)
    · rfl
    all_goals exact absurd hname (by simp)
  · rw [exists_mem_perm hperm]
    constructor
    · rintro ⟨p, hp, hname⟩
      rcases mem_detectVocalProblemsRaw.mp hp with ⟨h, rfl⟩ | ⟨h, rfl⟩ | ⟨h, rfl⟩ |
        ⟨h, rfl⟩ | ⟨h1, h2, rfl⟩ | ⟨h, rfl⟩ | ⟨h1, h2, rfl⟩
      · exact absurd hname (by simp)
      · exact h
      all_goals exact absurd hname (by simp)
    · intro h
      exact ⟨_, mem_detectVocalProblemsRaw.mpr (Or.inr (Or.inl ⟨h, rfl⟩)), rfl⟩

/-- C5 witness: with clarity -40 dB and crest 3 dB the emitted clarity
issue carries severity `critical` exactly because -40 < -35. -/
theorem c5_vocal_issue_rules_witness :
    (⟨"critical", "周波数バランス", "明瞭度が低い", (15 : ℚ)⟩ : Problem).severity
        = "critical" ↔ (⟨-20, -40, -40, -20, -40, -20⟩ : VocalFreqBands).clarity < -35 :=
  (c5_vocal_issue_rules ⟨-20, -40, -40, -20, -40, -20⟩ 3 0).2.1
    ⟨"critical", "周波数バランス", "明瞭度が低い", 15⟩
    (by norm_num [detectVocalProblems, detectVocalProblemsRaw, sortDescBy, insertDescBy])
    rfl

/-- Every recommendation the vocal generation loop emits is one of the
four recommendation shapes (clarity, boxiness, sibilance, dynamics). -/
theorem genVocalRecsLoop_mem {ms : Option MixerSpecs} {ps : Option PaSpecs}
    {fb : VocalFreqBands} {trend : Option Trend} {cap : ℚ} {sv : String}
    {items : List Problem} {addressed : List String} {r : Rec}
    (hr : r ∈ genVocalRecsLoop ms ps fb trend cap sv items addressed) :
    (∃ p, r = clarityRec ms ps cap sv p) ∨ (∃ p, r = boxinessRec p)
    ∨ (∃ p, r = sibilanceRec ms p) ∨ (∃ p, r = dynamicsRec ms fb p) := by
  induction items generalizing addressed with
  | nil => simp [genVocalRecsLoop] at hr
  | cons p rest ih =>
    rw [genVocalRecsLoop] at hr
    by_cases h1 : trendSkips trend p.category
    · rw [if_pos h1] at hr
      exact ih hr
    · rw [if_neg h1] at hr
      by_cases h2 : p.category ∈ addressed
      · rw [if_pos h2] at hr
        exact ih hr
      · rw [if_neg h2] at hr
        rcases List.mem_append.mp hr with hhere | hrest
        · by_cases b1 : containsSeq "明瞭度".toList p.problem.toList
          · rw [if_pos b1] at hhere
            rcases List.mem_singleton.mp hhere with rfl
            exact Or.inl ⟨p, rfl⟩
          · rw [if_neg b1] at hhere
            by_cases b2 : containsSeq "こもり".toList p.problem.toList
            · rw [if_pos b2] at hhere
              rcases List.mem_singleton.mp hhere with rfl
              exact Or.inr (Or.inl ⟨p, rfl⟩)
            · rw [if_neg b2] at hhere
              by_cases b3 : containsSeq "歯擦音".toList p.problem.toList
              · rw [if_pos b3] at hhere
                rcases List.mem_singleton.mp hhere with rfl
                exact Or.inr (Or.inr (Or.inl ⟨p, rfl⟩))
              · rw [if_neg b3] at hhere
                by_cases b4 : containsSeq "ダイナミクス".toList p.category.toList
                · rw [if_pos b4] at hhere
                  rcases List.mem_singleton.mp hhere with rfl
                  exact Or.inr (Or.inr (Or.inr ⟨p, rfl⟩))
                · rw [if_neg b4] at hhere
                  simp at hhere
        · exact ih hrest

/-- C9: with a console profile reporting `has_de_esser = false`, every
sibilance recommendation the vocal generator emits offers exactly the
manual-EQ and microphone-technique approaches — never a De-Esser
approach. -/
theorem c9_no_deesser_without_capability (ms : MixerSpecs) (ps : Option PaSpecs)
    (problems : List Problem) (fb : VocalFreqBands) (trend : Option Trend)
    (cap : ℚ) (sv : String) (hms : ms.has_de_esser = false) :
    ∀ r ∈ genVocalRecommendations (some ms) ps problems fb trend cap sv,
      r.title = "✂️ 歯擦音コントロール" →
        r.approaches.map Approach.method = ["マニュアルEQカット", "マイク技術的対策"]
        ∧ ∀ a ∈ r.approaches, a.method ≠ "De-Esser（推奨）" := by
  intro r hr htitle
  rcases genVocalRecsLoop_mem hr with ⟨p, rfl⟩ | ⟨p, rfl⟩ | ⟨p, rfl⟩ | ⟨p, rfl⟩
  · exact absurd htitle (by simp [clarityRec])
  · exact absurd htitle (by simp [boxinessRec])
  · constructor
    · simp [sibilanceRec, hms]
    · intro a ha
      rw [show sibilanceRec (some ms) p
          = ⟨p.severity, "✂️ 歯擦音コントロール",
             (if ms.has_de_esser then
                [⟨"De-Esser（推奨）", .deEsserDetailed, ["周波数選択的", "自然"],
                  ["ミキサーに搭載必要"], "★★☆☆☆"⟩]
              else [])
             ++ [⟨"マニュアルEQカット", .sibilanceManualEq, ["どのミキサーでも可能"],
                  ["常時カット、不自然になりやすい"], "★★☆☆☆"⟩,
                 ⟨"マイク技術的対策", .sibilanceMicTechnique, ["根本的解決", "EQ不要"],
                  ["事前準備必要"], "★★★☆☆"⟩] ⟩ from rfl, hms] at ha
      simp only [Bool.false_eq_true, if_false, List.nil_append] at ha
      rcases List.mem_cons.mp ha with rfl | ha
      · simp
      · rcases List.mem_singleton.mp ha with rfl
        simp
  · exact absurd htitle (by simp [dynamicsRec])

/-- C9 witness: a concrete console without a de-esser and a concrete
sibilance problem — the generated sibilance recommendation offers only
the manual-EQ and microphone-technique approaches. -/
theorem c9_no_deesser_witness :
    (sibilanceRec (some ⟨"X32", false, false⟩)
        ⟨"important", "周波数バランス", "歯擦音が過多（s/sh/ch音が刺さる）", 10⟩).approaches.map
        Approach.method
      = ["マニュアルEQカット", "マイク技術的対策"] :=
  (c9_no_deesser_without_capability ⟨"X32", false, false⟩ none
    [⟨"important", "周波数バランス", "歯擦音が過多（s/sh/ch音が刺さる）", 10⟩]
    ⟨-20, -40, -40, -20, -40, -20⟩ none 300 "low" rfl
    (sibilanceRec (some ⟨"X32", false, false⟩)
      ⟨"important", "周波数バランス", "歯擦音が過多（s/sh/ch音が刺さる）", 10⟩)
    (by
      simp only [genVocalRecommendations, genVocalRecsLoop, trendSkips, List.take,
        if_false, Bool.false_eq_true, List.not_mem_nil, if_neg, List.append_nil]
      rw [if_neg (by decide), if_neg (by decide), if_pos (by decide)]
      exact List.mem_singleton.mpr rfl)
    rfl).1

/-- C3 counterexample: a session whose vocal RMS rose by 3 dB gets trend
status `improving`, yet the dynamics-category issue detected on the same
stem still generates its recommendation — the generator does not skip
categories by trend status. -/
theorem c3_counterexample :
    (calculateTrend 0 (some (-3)) none).status = "improving"
    ∧ detectVocalProblems ⟨-20, -40, -20, -20, -40, -20⟩ 3 (-4)
        = [⟨"critical", "ダイナミクス", "ボーカルが過圧縮", 6⟩]
    ∧ (genVocalRecommendations none none
          (detectVocalProblems ⟨-20, -40, -20, -20, -40, -20⟩ 3 (-4))
          ⟨-20, -40, -20, -20, -40, -20⟩
          (some (calculateTrend 0 (some (-3)) none)) 300 "low").map Rec.title
        = ["📊 ダイナミクス最適化"] := by
  have hdetect : detectVocalProblems ⟨-20, -40, -20, -20, -40, -20⟩ 3 (-4)
      = [⟨"critical", "ダイナミクス", "ボーカルが過圧縮", 6⟩] := by
    norm_num [detectVocalProblems, detectVocalProblemsRaw, sortDescBy, insertDescBy]
  have hstatus : (calculateTrend 0 (some (-3)) none).status = "improving" := by
    norm_num [calculateTrend]
  refine ⟨hstatus, hdetect, ?_⟩
  rw [hdetect]
  show (genVocalRecsLoop none none ⟨-20, -40, -20, -20, -40, -20⟩
      (some (calculateTrend 0 (some (-3)) none)) 300 "low"
      [⟨"critical", "ダイナミクス", "ボーカルが過圧縮", 6⟩] []).map Rec.title
    = ["📊 ダイナミクス最適化"]
  rw [genVocalRecsLoop, if_neg (by simp [trendSkips]), if_neg (by simp)]
  rw [if_neg (by decide), if_neg (by decide), if_neg (by decide), if_pos (by decide)]
  rfl

/-- C3 amended: the trend status is `improving`/`degrading` exactly when
the RMS change exceeds +2 dB / falls below -2 dB (else `stable`), as
claimed; but recommendation generation skips an issue by trend only when
the issue's category is 周波数バランス (frequency balance) and the
trend's `clarity_change` exceeds +2 dB — an `improving` status alone
never suppresses a category (the dynamics recommendation is emitted
regardless of the trend record). -/
theorem c3_trend_status_and_skip_rule (cur pastRms : ℚ) (cp : Option (ℚ × ℚ))
    (ms : Option MixerSpecs) (ps : Option PaSpecs) (fb : VocalFreqBands)
    (t : Trend) (p : Problem) (cap : ℚ) (sv : String) :
    ((calculateTrend cur (some pastRms) cp).status = "improving" ↔ 2 < cur - pastRms)
    ∧ ((calculateTrend cur (some pastRms) cp).status = "degrading" ↔ cur - pastRms < -2)
    ∧ ((calculateTrend cur (some pastRms) cp).status = "stable" ↔ |cur - pastRms| ≤ 2)
    ∧ (p.category = "周波数バランス" → 2 < t.clarity_change.getD 0 →
        genVocalRecommendations ms ps [p] fb (some t) cap sv = [])
    ∧ (p.category = "ダイナミクス" →
        (p.problem = "ボーカルが過圧縮" ∨ p.problem = "ボーカルのダイナミクスが広すぎ") →
        genVocalRecommendations ms ps [p] fb (some t) cap sv = [dynamicsRec ms fb p])
    ∧ (p.category = "周波数バランス" → t.clarity_change.getD 0 ≤ 2 →
        p.problem = "明瞭度が低い" →
        genVocalRecommendations ms ps [p] fb (some t) cap sv
          = [clarityRec ms ps cap sv p]) := by
  have hstat : (calculateTrend cur (some pastRms) cp).status =
      (if 2 < |cur - pastRms| then
        (if 0 < cur - pastRms then "improving" else "degrading") else "stable") := rfl
  refine ⟨?_, ?_, ?_, ?_, ?_, ?_⟩
  · rw [hstat]
    split_ifs with h1 h2
    · simp only [true_iff, iff_true]
      rw [abs_of_pos h2] at h1
      exact h1
    · constructor
      · intro h; exact absurd h (by simp)
      · intro h; exact absurd (lt_trans (by norm_num) h) h2
    · constructor
      · intro h; exact absurd h (by simp)
      · intro h; exact absurd (lt_of_lt_of_le h (le_abs_self _)) h1
  · rw [hstat]
    split_ifs with h1 h2
    · constructor
      · intro h; exact absurd h (by simp)
      · intro h; exact absurd h2 (not_lt.mpr (le_of_lt (by linarith)))
    · simp only [true_iff, iff_true]
      rw [abs_of_nonpos (not_lt.mp h2)] at h1
      linarith
    · constructor
      · intro h; exact absurd h (by simp)
      · intro h
        exact absurd (lt_of_lt_of_le (by linarith : (2 : ℚ) < -(cur - pastRms))
          (neg_le_abs _)) h1
  · rw [hstat]
    split_ifs with h1 h2
    · constructor
      · intro h; exact absurd h (by simp)
      · intro h; exact absurd h1 (not_lt.mpr h)
    · constructor
      · intro h; exact absurd h (by simp)
      · intro h; exact absurd h1 (not_lt.mpr h)
    · simp only [true_iff, iff_true]
      exact not_lt.mp h1
  · intro hcat hcc
    have hskip : trendSkips (some t) p.category = true := by
      simp only [trendSkips, decide_eq_true_eq]
      exact ⟨hcat, hcc⟩
    show genVocalRecsLoop ms ps fb (some t) cap sv [p] [] = []
    rw [genVocalRecsLoop, if_pos hskip]
    rfl
  · intro hcat hprob
    have hskip : trendSkips (some t) p.category = false := by
      simp [trendSkips, hcat]
    show genVocalRecsLoop ms ps fb (some t) cap sv [p] [] = [dynamicsRec ms fb p]
    rw [genVocalRecsLoop, if_neg (by rw [hskip]; exact Bool.false_ne_true),
      if_neg (List.not_mem_nil _)]
    rcases hprob with h | h <;>
      rw [h, hcat, if_neg (by decide), if_neg (by decide), if_neg (by decide),
        if_pos (by decide)] <;> rfl
  · intro hcat hcc hprob
    have hskip : trendSkips (some t) p.category = false := by
      simp only [trendSkips, hcat, decide_eq_false_iff_not]
      rintro ⟨-, h2⟩
      exact absurd h2 (not_lt.mpr hcc)
    show genVocalRecsLoop ms ps fb (some t) cap sv [p] []
      = [clarityRec ms ps cap sv p]
    rw [genVocalRecsLoop, if_neg (by rw [hskip]; exact Bool.false_ne_true),
      if_neg (List.not_mem_nil _), hprob, if_pos (by decide)]
    rfl

/-- C3 witness: a +3 dB RMS change is classified `improving`, and a
dynamics-category over-compression issue still yields its recommendation
under an improving trend record. -/
theorem c3_trend_status_and_skip_witness :
    (calculateTrend 3 (some 0) none).status = "improving"
    ∧ genVocalRecommendations none none
        [⟨"critical", "ダイナミクス", "ボーカルが過圧縮", 6⟩]
        ⟨-20, -40, -20, -20, -40, -20⟩ (some ⟨3, "improving", none⟩) 300 "low"
      = [dynamicsRec none ⟨-20, -40, -20, -20, -40, -20⟩
          ⟨"critical", "ダイナミクス", "ボーカルが過圧縮", 6⟩] :=
  ⟨(c3_trend_status_and_skip_rule 3 0 none none none ⟨-20, -40, -20, -20, -40, -20⟩
      ⟨3, "improving", none⟩ ⟨"critical", "ダイナミクス", "ボーカルが過圧縮", 6⟩
      300 "low").1.mpr (by norm_num),
   (c3_trend_status_and_skip_rule 3 0 none none none ⟨-20, -40, -20, -20, -40, -20⟩
      ⟨3, "improving", none⟩ ⟨"critical", "ダイナミクス", "ボーカルが過圧縮", 6⟩
      300 "low").2.2.2.2.1 rfl (Or.inl rfl)⟩

end PAV3

